import Mathlib

/-!
Verification of the barbershop booking service (`apibeuot.py`).

The application state consists of three module-level Python structures:
`available_slots : dict[str, list[str]]`, `bookings : dict[str, dict]` and
`conversation_history : list[dict]`.  Python `dict`s (insertion ordered,
unique keys) are embedded as association lists `List (String × α)` together
with the access helpers `dictFind` (`d[k]` / `d.get(k)`), `dictGetD`
(`d.get(k, default)`), `hasKey` (`k in d`), `dictSet` (`d[k] = v`) and
`dictDel` (`del d[k]`).

Network effects (the OpenAI chat completion, the Klarna HTTP round trip,
the body of an inbound push request) are inputs of the embedded handlers:
each handler takes the outcome of its external call as an argument and is
otherwise a faithful translation of the Python control flow.
-/

/-- `d.get(k)` / `d[k]` on a Python dict embedded as an association list:
the first entry with the given key, if any. -/
def dictFind {α : Type} : List (String × α) → String → Option α
  | [], _ => none
  | p :: m, k => if p.1 = k then some p.2 else dictFind m k

/-- `d.get(k, default)`. -/
def dictGetD {α : Type} (m : List (String × α)) (k : String) (d : α) : α :=
  (dictFind m k).getD d

/-- `k in d` on a Python dict. -/
def hasKey {α : Type} : List (String × α) → String → Bool
  | [], _ => false
  | p :: m, k => if p.1 = k then true else hasKey m k

/-- `d[k] = v`: update the entry in place if the key is present (Python
dicts have unique keys), otherwise append the new entry at the end
(Python insertion order). -/
def dictSet {α : Type} : List (String × α) → String → α → List (String × α)
  | [], k, v => [(k, v)]
  | p :: m, k, v => if p.1 = k then (k, v) :: m else p :: dictSet m k v

/-- `del d[k]`: drop the entry with the given key. -/
def dictDel {α : Type} (m : List (String × α)) (k : String) : List (String × α) :=
  m.filter (fun p => p.1 != k)

/-- The booking dict extracted from the LLM reply:
`{"service": ..., "customer_name": ..., "date": ..., "time": ...}`. -/
structure Booking where
  service : String
  customer_name : String
  date : String
  time : String
deriving Repr, DecidableEq

/-- A value of the `bookings` dict: `{"booking": ..., "status": ...}`. -/
structure BookingRec where
  booking : Booking
  status : String
deriving Repr, DecidableEq

/-- The module-level mutable state of the application. -/
structure AppState where
  available_slots : List (String × List String)
  bookings : List (String × BookingRec)
  conversation_history : List (String × String)
deriving Repr, DecidableEq

/-- The seed inventory assigned at module load. -/
def initialState : AppState :=
  { available_slots :=
      [("2025-09-13", ["10:00", "11:00", "14:00"]),
       ("2025-09-14", ["09:00", "12:00", "15:00"])],
    bookings := [],
    conversation_history := [] }

/-- `check_availability(date_str, time)`:
`time in available_slots.get(date_str, [])`. -/
def check_availability (s : AppState) (date_str time : String) : Bool :=
  (dictGetD s.available_slots date_str []).contains time

/-- Response value of the `/chat` endpoint: `{"status": ..., "reply": ...}`. -/
structure ChatResponse where
  status : String
  reply : String
deriving Repr, DecidableEq

/-- The fixed reply returned when the LLM call raises. -/
def errorReply : String := "⚠️ Sorry, I had trouble responding. Please try again."

/-- `POST /chat` (`chat_with_agent`).  External inputs of the handler:
`llm` is the outcome of the OpenAI completion call (`Except.error` when the
call raises, `Except.ok reply` otherwise); `parsed` is the combined outcome
of `re.search` for a brace-delimited substring of the reply, `json.loads`
on it and the three key lookups `booking["date"]`, `booking["time"]`,
`booking["customer_name"]` — `none` when any of these fails (no match, or
the inner `except` catches), `some booking` when all succeed; `new_id` is
the freshly drawn `uuid4` string.  The body mirrors the Python line by
line: append the user turn, call the LLM, append the assistant turn, try
to parse a booking, check availability, either report alternatives or
remove the slot and store a pending booking. -/
def chat_with_agent (s : AppState) (message : String) (llm : Except String String)
    (parsed : Option Booking) (new_id : String) : AppState × ChatResponse :=
  let s0 : AppState :=
    { s with conversation_history := s.conversation_history ++ [("user", message)] }
  match llm with
  | Except.error _ => (s0, { status := "error", reply := errorReply })
  | Except.ok reply =>
    let s1 : AppState :=
      { s0 with conversation_history := s0.conversation_history ++ [("assistant", reply)] }
    match parsed with
    | none => (s1, { status := "chat", reply := reply })
    | some booking =>
      if check_availability s1 booking.date booking.time then
        let newTimes := (dictGetD s1.available_slots booking.date []).erase booking.time
        let s2 : AppState :=
          { s1 with available_slots := dictSet s1.available_slots booking.date newTimes }
        let newRec : BookingRec := { booking := booking, status := "pending" }
        let s3 : AppState := { s2 with bookings := dictSet s2.bookings new_id newRec }
        (s3, { status := "reserved",
               reply := "✅ Reserved! Booking ID: " ++ new_id ++ " for "
                 ++ booking.customer_name ++ " at " ++ booking.time
                 ++ " on " ++ booking.date ++ "." })
      else
        let alternatives := dictGetD s1.available_slots booking.date []
        if alternatives ≠ [] then
          (s1, { status := "unavailable",
                 reply := "❌ Sorry, " ++ booking.date ++ " at " ++ booking.time
                   ++ " is not available. Available times: "
                   ++ String.intercalate ", " alternatives ++ "." })
        else
          (s1, { status := "unavailable",
                 reply := "❌ Sorry, no slots available on " ++ booking.date
                   ++ ". Please choose another day." })

/-- `DELETE /api/bookings/{booking_id}` (`cancel_booking`): 404 when the id
is unknown; otherwise append the booking's time back to its date's list
(creating the date entry if absent) and delete the booking record. -/
def cancel_booking (s : AppState) (booking_id : String) : Except Nat AppState :=
  match dictFind s.bookings booking_id with
  | none => Except.error 404
  | some rec =>
    let b := rec.booking
    let slots :=
      if hasKey s.available_slots b.date then
        dictSet s.available_slots b.date (dictGetD s.available_slots b.date [] ++ [b.time])
      else
        s.available_slots ++ [(b.date, [b.time])]
    Except.ok { s with available_slots := slots, bookings := dictDel s.bookings booking_id }

/-- `POST /api/bookings/{booking_id}/confirm` (`confirm_booking`): 404 when
the id is unknown, otherwise set the record's status to `"confirmed"`. -/
def confirm_booking (s : AppState) (booking_id : String) : Except Nat AppState :=
  match dictFind s.bookings booking_id with
  | none => Except.error 404
  | some rec =>
    let newBookings := dictSet s.bookings booking_id { rec with status := "confirmed" }
    Except.ok { s with bookings := newBookings }

/-- `POST /api/slots` (`add_slot`): 400 when `date` or `time` is missing or
falsy (the empty string); otherwise create the date entry if absent and
append the time only when it is not already present. -/
def add_slot (s : AppState) (odate otime : Option String) : Except Nat AppState :=
  match odate, otime with
  | some date_str, some time =>
    if date_str = "" ∨ time = "" then Except.error 400
    else
      let s1 : AppState :=
        if hasKey s.available_slots date_str then s
        else { s with available_slots := s.available_slots ++ [(date_str, [])] }
      if (dictGetD s1.available_slots date_str []).contains time then Except.ok s1
      else
        let newSlots :=
          dictSet s1.available_slots date_str (dictGetD s1.available_slots date_str [] ++ [time])
        Except.ok { s1 with available_slots := newSlots }
  | _, _ => Except.error 400

/-- `DELETE /api/slots` (`remove_slot`): 400 when `date` or `time` is
missing or falsy; remove the first occurrence of the time when present,
no-op otherwise. -/
def remove_slot (s : AppState) (odate otime : Option String) : Except Nat AppState :=
  match odate, otime with
  | some date_str, some time =>
    if date_str = "" ∨ time = "" then Except.error 400
    else
      if hasKey s.available_slots date_str then
        if (dictGetD s.available_slots date_str []).contains time then
          let newSlots :=
            dictSet s.available_slots date_str ((dictGetD s.available_slots date_str []).erase time)
          Except.ok { s with available_slots := newSlots }
        else Except.ok s
      else Except.ok s
  | _, _ => Except.error 400

/-- The parsed HTTP response of the Klarna order-creation call:
status code, raw text, and the JSON body as a string-valued dict. -/
structure HttpResponse where
  status_code : Nat
  text : String
  body : List (String × String)
deriving Repr, DecidableEq

/-- `create_klarna_order`: the outbound request (auth header, order lines,
merchant urls) only feeds the network call, whose parsed response is the
input `resp`.  A status other than 200 raises `HTTPException(500,
detail=response.text)`; otherwise the parsed JSON body is returned. -/
def create_klarna_order (amount : Int) (service customer_name : String)
    (resp : HttpResponse) : Except (Nat × String) (List (String × String)) :=
  if resp.status_code ≠ 200 then Except.error (500, resp.text)
  else Except.ok resp.body

/-- Response of `POST /pay/klarna`. -/
structure KlarnaPayResponse where
  status : String
  order_id : Option String
  html_snippet : Option String
deriving Repr, DecidableEq

/-- `POST /pay/klarna` (`pay_with_klarna`): propagate the exception from
`create_klarna_order`, otherwise echo `order.get("order_id")` and
`order.get("html_snippet")`. -/
def pay_with_klarna (amount : Int) (service customer_name : String)
    (resp : HttpResponse) : Except (Nat × String) KlarnaPayResponse :=
  match create_klarna_order amount service customer_name resp with
  | Except.error e => Except.error e
  | Except.ok order =>
    Except.ok { status := "klarna_order_created",
                order_id := dictFind order "order_id",
                html_snippet := dictFind order "html_snippet" }

/-- Response of `POST /klarna/push`. -/
structure PushResponse where
  status : String
  order_id : Option String
deriving Repr, DecidableEq

/-- `POST /klarna/push` (`klarna_push`): read the `klarna_order_id` query
parameter, parse the request body with `await request.json()` — whose
outcome is the input `body`, `Except.error` when the body is not valid
JSON, in which case the exception propagates out of the handler — print,
and acknowledge echoing the order id.  No application state is touched. -/
def klarna_push (s : AppState) (klarna_order_id : Option String)
    (body : Except String (List (String × String))) :
    AppState × Except String PushResponse :=
  match body with
  | Except.error e => (s, Except.error e)
  | Except.ok _ => (s, Except.ok { status := "received", order_id := klarna_order_id })

theorem dictFind_set_self {α : Type} (m : List (String × α)) (k : String) (v : α) :
    dictFind (dictSet m k v) k = some v := by
  induction m with
  | nil => simp [dictSet, dictFind]
  | cons p m ih =>
    by_cases h : p.1 = k
    · simp [dictSet, h, dictFind]
    · simp [dictSet, h, dictFind, ih]

theorem dictFind_set_ne {α : Type} (m : List (String × α)) {k k' : String} (v : α)
    (h : k ≠ k') : dictFind (dictSet m k v) k' = dictFind m k' := by
  induction m with
  | nil => simp [dictSet, dictFind, h]
  | cons p m ih =>
    by_cases hpk : p.1 = k
    · simp [dictSet, hpk, dictFind, h]
    · simp [dictSet, hpk, dictFind, ih]

theorem mem_dictSet {α : Type} {m : List (String × α)} {k : String} {v : α}
    {q : String × α} (h : q ∈ dictSet m k v) : q = (k, v) ∨ q ∈ m := by
  induction m with
  | nil => simpa [dictSet] using h
  | cons p m ih =>
    by_cases hpk : p.1 = k
    · simp only [dictSet, hpk, if_pos] at h
      rcases List.mem_cons.mp h with h | h
      · exact Or.inl h
      · exact Or.inr (List.mem_cons_of_mem _ h)
    · simp only [dictSet, hpk, if_neg, not_false_iff] at h
      rcases List.mem_cons.mp h with h | h
      · exact Or.inr (h ▸ List.mem_cons_self _ _)
      · rcases ih h with h | h
        · exact Or.inl h
        · exact Or.inr (List.mem_cons_of_mem _ h)

theorem hasKey_iff {α : Type} (m : List (String × α)) (k : String) :
    hasKey m k = true ↔ k ∈ m.map Prod.fst := by
  induction m with
  | nil => simp [hasKey]
  | cons p m ih =>
    by_cases h : p.1 = k
    · simp [hasKey, h]
    · simp only [hasKey, h, if_neg, not_false_iff, List.map_cons, List.mem_cons]
      rw [ih]
      constructor
      · exact fun hm => Or.inr hm
      · rintro (hc | hm)
        · exact absurd hc.symm h
        · exact hm

theorem hasKey_eq_false_iff {α : Type} (m : List (String × α)) (k : String) :
    hasKey m k = false ↔ dictFind m k = none := by
  induction m with
  | nil => simp [hasKey, dictFind]
  | cons p m ih =>
    by_cases h : p.1 = k <;> simp [hasKey, dictFind, h, ih]

theorem dictFind_mem {α : Type} {m : List (String × α)} {k : String} {v : α}
    (h : dictFind m k = some v) : (k, v) ∈ m := by
  induction m with
  | nil => simp [dictFind] at h
  | cons p m ih =>
    obtain ⟨a, b⟩ := p
    by_cases hpk : a = k
    · subst hpk
      simp only [dictFind, if_pos, Option.some.injEq] at h
      subst h
      exact List.mem_cons_self _ _
    · simp only [dictFind, hpk, if_neg, not_false_iff] at h
      exact List.mem_cons_of_mem _ (ih h)

theorem dictSet_eq_append {α : Type} {m : List (String × α)} {k : String} (v : α)
    (h : hasKey m k = false) : dictSet m k v = m ++ [(k, v)] := by
  induction m with
  | nil => simp [dictSet]
  | cons p m ih =>
    by_cases hpk : p.1 = k
    · simp [hasKey, hpk] at h
    · simp only [hasKey, hpk, if_neg, not_false_iff] at h
      simp [dictSet, hpk, ih h]

theorem dictFind_append {α : Type} (m l : List (String × α)) (k : String) :
    dictFind (m ++ l) k = if hasKey m k then dictFind m k else dictFind l k := by
  induction m with
  | nil => simp [hasKey, dictFind]
  | cons p m ih =>
    by_cases h : p.1 = k <;> simp [hasKey, dictFind, h, ih]

theorem mem_keys_dictSet {α : Type} {m : List (String × α)} {k k' : String} {v : α}
    (h : k' ∈ (dictSet m k v).map Prod.fst) : k' = k ∨ k' ∈ m.map Prod.fst := by
  rcases List.mem_map.mp h with ⟨q, hq, hq1⟩
  rcases mem_dictSet hq with h | h
  · exact Or.inl (by rw [← hq1, h])
  · exact Or.inr (List.mem_map.mpr ⟨q, h, hq1⟩)

theorem keysNodup_dictSet {α : Type} {m : List (String × α)} (k : String) (v : α)
    (h : (m.map Prod.fst).Nodup) : ((dictSet m k v).map Prod.fst).Nodup := by
  induction m with
  | nil => simp [dictSet]
  | cons p m ih =>
    obtain ⟨a, b⟩ := p
    by_cases hpk : a = k
    · subst hpk
      simpa [dictSet] using h
    · simp only [List.map_cons, List.nodup_cons] at h
      have hkeys : a ∉ (dictSet m k v).map Prod.fst := by
        intro hmem
        rcases mem_keys_dictSet hmem with hc | hc
        · exact hpk hc
        · exact h.1 hc
      simp only [dictSet, hpk, if_neg, not_false_iff, List.map_cons, List.nodup_cons]
      exact ⟨hkeys, ih h.2⟩

theorem mem_dictDel {α : Type} {m : List (String × α)} {k : String} {q : String × α} :
    q ∈ dictDel m k ↔ q ∈ m ∧ q.1 ≠ k := by
  simp [dictDel, List.mem_filter, bne_iff_ne]

theorem dictDel_sublist {α : Type} (m : List (String × α)) (k : String) :
    (dictDel m k).Sublist m :=
  List.filter_sublist m

theorem hasKey_dictDel_self {α : Type} (m : List (String × α)) (k : String) :
    hasKey (dictDel m k) k = false := by
  cases hcase : hasKey (dictDel m k) k
  · rfl
  · exfalso
    rcases List.mem_map.mp ((hasKey_iff _ _).mp hcase) with ⟨q, hq, hq1⟩
    exact (mem_dictDel.mp hq).2 hq1

theorem nodup_dictGetD {m : List (String × List String)}
    (h : ∀ p ∈ m, List.Nodup p.2) (k : String) : (dictGetD m k []).Nodup := by
  unfold dictGetD
  cases hf : dictFind m k with
  | none => simp
  | some v => simpa using h _ (dictFind_mem hf)

theorem mem_dictGetD_iff {α : Type} {m : List (String × List α)} {k : String} {t : α} :
    t ∈ dictGetD m k [] ↔ ∃ v, dictFind m k = some v ∧ t ∈ v := by
  unfold dictGetD
  cases hf : dictFind m k <;> simp

theorem check_availability_eq_true {s : AppState} {d t : String} :
    check_availability s d t = true ↔ t ∈ dictGetD s.available_slots d [] := by
  simp [check_availability]

theorem check_availability_eq_false {s : AppState} {d t : String} :
    check_availability s d t = false ↔ t ∉ dictGetD s.available_slots d [] := by
  simp [check_availability]

/-- The (date, time) pair held by a stored booking entry. -/
def slotOf (p : String × BookingRec) : String × String :=
  (p.2.booking.date, p.2.booking.time)

/-- Well-formedness of the inventory: the dict has unique date keys and
each date's list of free times has no duplicates (it denotes a set). -/
def SlotsWF (s : AppState) : Prop :=
  (s.available_slots.map Prod.fst).Nodup ∧ ∀ p ∈ s.available_slots, List.Nodup p.2

/-- Well-formedness of the booking store: unique booking ids and no two
stored bookings hold the same (date, time) slot. -/
def BookingsWF (s : AppState) : Prop :=
  (s.bookings.map Prod.fst).Nodup ∧
  s.bookings.Pairwise (fun p q => slotOf p ≠ slotOf q)

/-- The exclusivity half of the spec invariant: no stored (hence active:
pending or confirmed) booking holds a time that is free in the
inventory. -/
def Exclusive (s : AppState) : Prop :=
  ∀ p ∈ s.bookings, check_availability s p.2.booking.date p.2.booking.time = false

/-- The full inductive state invariant. -/
def StateWF (s : AppState) : Prop := SlotsWF s ∧ BookingsWF s ∧ Exclusive s

theorem pairwise_dictSet_of_rel {α : Type} {R : (String × α) → (String × α) → Prop}
    {m : List (String × α)} {k : String} {v v0 : α}
    (hf : dictFind m k = some v0) (hPW : m.Pairwise R)
    (h1 : ∀ q, R (k, v0) q → R (k, v) q) (h2 : ∀ q, R q (k, v0) → R q (k, v)) :
    (dictSet m k v).Pairwise R := by
  induction m with
  | nil => simp [dictFind] at hf
  | cons p m ih =>
    obtain ⟨a, b⟩ := p
    by_cases hpk : a = k
    · subst hpk
      simp only [dictFind, if_pos, Option.some.injEq] at hf
      subst hf
      simp only [dictSet, if_pos]
      rw [List.pairwise_cons] at hPW ⊢
      exact ⟨fun q hq => h1 q (hPW.1 q hq), hPW.2⟩
    · simp only [dictFind, hpk, if_neg, not_false_iff] at hf
      simp only [dictSet, hpk, if_neg, not_false_iff]
      rw [List.pairwise_cons] at hPW ⊢
      constructor
      · intro q hq
        rcases mem_dictSet hq with rfl | hqm
        · exact h2 _ (hPW.1 _ (dictFind_mem hf))
        · exact hPW.1 q hqm
      · exact ih hf hPW.2

theorem chat_preserves_WF (s : AppState) (message : String) (llm : Except String String)
    (parsed : Option Booking) (new_id : String) (hWF : StateWF s)
    (hfresh : hasKey s.bookings new_id = false) :
    StateWF (chat_with_agent s message llm parsed new_id).1 := by
  obtain ⟨slots, books, history⟩ := s
  obtain ⟨⟨hKN, hND⟩, ⟨hBKN, hPW⟩, hEx⟩ := hWF
  simp only [SlotsWF, BookingsWF] at hKN hND hBKN hPW
  have hEx2 : ∀ p ∈ books, p.2.booking.time ∉ dictGetD slots p.2.booking.date [] :=
    fun p hp => check_availability_eq_false.mp (hEx p hp)
  simp only [hasKey] at hfresh
  cases llm with
  | error e => exact ⟨⟨hKN, hND⟩, ⟨hBKN, hPW⟩, hEx⟩
  | ok reply =>
    cases parsed with
    | none => exact ⟨⟨hKN, hND⟩, ⟨hBKN, hPW⟩, hEx⟩
    | some booking =>
      unfold chat_with_agent
      dsimp only [check_availability]
      by_cases hav : (dictGetD slots booking.date []).contains booking.time = true
      · rw [if_pos hav]
        have hmem : booking.time ∈ dictGetD slots booking.date [] := by
          simpa using hav
        have hLnd : (dictGetD slots booking.date []).Nodup := nodup_dictGetD hND _
        refine ⟨⟨keysNodup_dictSet _ _ hKN, ?_⟩, ⟨?_, ?_⟩, ?_⟩
        · intro p hp
          rcases mem_dictSet hp with rfl | hp
          · exact hLnd.erase _
          · exact hND p hp
        · dsimp only
          rw [dictSet_eq_append _ hfresh, List.map_append]
          simp only [List.map_cons, List.map_nil]
          rw [List.nodup_append]
          refine ⟨hBKN, List.nodup_singleton _, ?_⟩
          intro a ha hb
          simp only [List.mem_singleton] at hb
          subst hb
          exact ((hasKey_iff _ _).not.mp (by simp [hfresh])) ha
        · dsimp only
          rw [dictSet_eq_append _ hfresh, List.pairwise_append]
          refine ⟨hPW, by simp, ?_⟩
          intro p hp q hq
          simp only [List.mem_singleton] at hq
          subst hq
          intro hcon
          have hd : p.2.booking.date = booking.date := congrArg Prod.fst hcon
          have ht : p.2.booking.time = booking.time := congrArg Prod.snd hcon
          have hex := hEx2 p hp
          rw [hd, ht] at hex
          exact hex hmem
        · intro p hp
          rw [check_availability_eq_false]
          dsimp only at hp ⊢
          rcases mem_dictSet hp with rfl | hp
          · dsimp only
            simp only [dictGetD, dictFind_set_self, Option.getD_some]
            exact hLnd.not_mem_erase
          · have hex := hEx2 p hp
            by_cases hd : booking.date = p.2.booking.date
            · rw [← hd] at hex ⊢
              simp only [dictGetD, dictFind_set_self, Option.getD_some]
              exact fun hc => hex (List.mem_of_mem_erase hc)
            · simp only [dictGetD, dictFind_set_ne _ _ hd]
              exact hex
      · rw [if_neg hav]
        by_cases halt : dictGetD slots booking.date [] ≠ []
        · rw [if_pos halt]
          exact ⟨⟨hKN, hND⟩, ⟨hBKN, hPW⟩, hEx⟩
        · rw [if_neg halt]
          exact ⟨⟨hKN, hND⟩, ⟨hBKN, hPW⟩, hEx⟩

theorem cancel_preserves_WF (s : AppState) (booking_id : String) (s2 : AppState)
    (hWF : StateWF s) (h : cancel_booking s booking_id = Except.ok s2) : StateWF s2 := by
  obtain ⟨slots, books, history⟩ := s
  obtain ⟨⟨hKN, hND⟩, ⟨hBKN, hPW⟩, hEx⟩ := hWF
  simp only [SlotsWF, BookingsWF] at hKN hND hBKN hPW
  have hEx2 : ∀ p ∈ books, p.2.booking.time ∉ dictGetD slots p.2.booking.date [] :=
    fun p hp => check_availability_eq_false.mp (hEx p hp)
  unfold cancel_booking at h
  dsimp only at h
  cases hf : dictFind books booking_id with
  | none => rw [hf] at h; exact absurd h (by simp)
  | some rec =>
    rw [hf] at h
    dsimp only at h
    injection h with h2
    subst h2
    have hmemb : (booking_id, rec) ∈ books := dictFind_mem hf
    have hbt : rec.booking.time ∉ dictGetD slots rec.booking.date [] := hEx2 _ hmemb
    have hBKN2 : ((dictDel books booking_id).map Prod.fst).Nodup :=
      hBKN.sublist ((dictDel_sublist books booking_id).map Prod.fst)
    have hPW2 : (dictDel books booking_id).Pairwise (fun p q => slotOf p ≠ slotOf q) :=
      hPW.sublist (dictDel_sublist books booking_id)
    have hsym : Symmetric (fun p q : String × BookingRec => slotOf p ≠ slotOf q) :=
      fun _ _ hne => Ne.symm hne
    have hslot : ∀ p ∈ dictDel books booking_id,
        (p.2.booking.date, p.2.booking.time) ≠ (rec.booking.date, rec.booking.time) := by
      intro p hp
      obtain ⟨hpm, hpne⟩ := mem_dictDel.mp hp
      have hpneq : p ≠ (booking_id, rec) := fun heq => hpne (congrArg Prod.fst heq)
      exact hPW.forall hsym hpm hmemb hpneq
    by_cases hk : hasKey slots rec.booking.date = true
    · rw [if_pos hk]
      refine ⟨⟨keysNodup_dictSet _ _ hKN, ?_⟩, ⟨hBKN2, hPW2⟩, ?_⟩
      · intro p hp
        rcases mem_dictSet hp with rfl | hp
        · rw [List.nodup_append]
          exact ⟨nodup_dictGetD hND _, List.nodup_singleton _,
            by simpa [List.disjoint_singleton] using hbt⟩
        · exact hND p hp
      · intro p hp
        rw [check_availability_eq_false]
        dsimp only at hp ⊢
        obtain ⟨hpm, _⟩ := mem_dictDel.mp hp
        have hex := hEx2 p hpm
        by_cases hd : rec.booking.date = p.2.booking.date
        · rw [← hd] at hex ⊢
          simp only [dictGetD, dictFind_set_self, Option.getD_some]
          intro hc
          rcases List.mem_append.mp hc with hc | hc
          · exact hex hc
          · simp only [List.mem_singleton] at hc
            exact hslot p hp (by rw [← hd, hc])
        · simp only [dictGetD, dictFind_set_ne _ _ hd]
          exact hex
    · rw [if_neg hk]
      have hdk : rec.booking.date ∉ slots.map Prod.fst := by
        intro hc
        exact hk ((hasKey_iff _ _).mpr hc)
      refine ⟨⟨?_, ?_⟩, ⟨hBKN2, hPW2⟩, ?_⟩
      · simp only [List.map_append, List.map_cons, List.map_nil]
        rw [List.nodup_append]
        exact ⟨hKN, List.nodup_singleton _, by simpa [List.disjoint_singleton] using hdk⟩
      · intro p hp
        rcases List.mem_append.mp hp with hp | hp
        · exact hND p hp
        · simp only [List.mem_singleton] at hp
          subst hp
          exact List.nodup_singleton _
      · intro p hp
        rw [check_availability_eq_false]
        dsimp only at hp ⊢
        obtain ⟨hpm, _⟩ := mem_dictDel.mp hp
        have hex := hEx2 p hpm
        simp only [dictGetD, dictFind_append]
        by_cases hkp : hasKey slots p.2.booking.date = true
        · rw [if_pos hkp]
          exact hex
        · rw [if_neg hkp]
          by_cases hdp : rec.booking.date = p.2.booking.date
          · simp only [dictFind, hdp, if_pos, Option.getD_some]
            intro hc
            rcases List.mem_singleton.mp hc with hc
            exact hslot p hp (by rw [← hdp, hc])
          · simp only [dictFind, hdp, if_neg, not_false_iff, Option.getD_none]
            exact List.not_mem_nil _

theorem confirm_preserves_WF (s : AppState) (booking_id : String) (s2 : AppState)
    (hWF : StateWF s) (h : confirm_booking s booking_id = Except.ok s2) : StateWF s2 := by
  obtain ⟨slots, books, history⟩ := s
  obtain ⟨⟨hKN, hND⟩, ⟨hBKN, hPW⟩, hEx⟩ := hWF
  simp only [SlotsWF, BookingsWF] at hKN hND hBKN hPW
  unfold confirm_booking at h
  dsimp only at h
  cases hf : dictFind books booking_id with
  | none => rw [hf] at h; exact absurd h (by simp)
  | some rec =>
    rw [hf] at h
    dsimp only at h
    injection h with h2
    subst h2
    refine ⟨⟨hKN, hND⟩, ⟨keysNodup_dictSet _ _ hBKN, ?_⟩, ?_⟩
    · exact pairwise_dictSet_of_rel hf hPW (fun q hq => hq) (fun q hq => hq)
    · intro p hp
      rcases mem_dictSet hp with rfl | hp
      · exact hEx (booking_id, rec) (dictFind_mem hf)
      · exact hEx p hp

theorem chat_history_shape (s : AppState) (message : String) (llm : Except String String)
    (parsed : Option Booking) (new_id : String) :
    ∃ rest, (chat_with_agent s message llm parsed new_id).1.conversation_history =
      s.conversation_history ++ ("user", message) :: rest := by
  obtain ⟨slots, books, history⟩ := s
  cases llm with
  | error e => exact ⟨[], by simp [chat_with_agent]⟩
  | ok reply =>
    cases parsed with
    | none => exact ⟨[("assistant", reply)], by simp [chat_with_agent]⟩
    | some booking =>
      refine ⟨[("assistant", reply)], ?_⟩
      unfold chat_with_agent
      dsimp only
      split
      · simp
      · split
        · simp
        · simp

theorem chat_status_ne_greeting (s : AppState) (message : String)
    (llm : Except String String) (parsed : Option Booking) (new_id : String) :
    (chat_with_agent s message llm parsed new_id).2.status ≠ "greeting" := by
  obtain ⟨slots, books, history⟩ := s
  cases llm with
  | error e => simp [chat_with_agent]
  | ok reply =>
    cases parsed with
    | none => simp [chat_with_agent]
    | some booking =>
      unfold chat_with_agent
      dsimp only
      split
      · simp
      · split
        · simp
        · simp

theorem chat_history_grows (s : AppState) (message : String)
    (llm : Except String String) (parsed : Option Booking) (new_id : String) :
    (chat_with_agent s message llm parsed new_id).1.conversation_history ≠
      s.conversation_history := by
  obtain ⟨rest, hr⟩ := chat_history_shape s message llm parsed new_id
  intro hc
  rw [hr] at hc
  have hlen := congrArg List.length hc
  simp [List.length_append] at hlen

instance (s : AppState) : Decidable (SlotsWF s) := by
  unfold SlotsWF
  infer_instance

instance (s : AppState) : Decidable (BookingsWF s) := by
  unfold BookingsWF
  infer_instance

instance (s : AppState) : Decidable (Exclusive s) := by
  unfold Exclusive
  infer_instance

instance (s : AppState) : Decidable (StateWF s) := by
  unfold StateWF
  infer_instance

theorem list_contains_iff {l : List String} {a : String} : l.contains a = true ↔ a ∈ l := by
  simp

instance {ε α : Type} [DecidableEq ε] [DecidableEq α] : DecidableEq (Except ε α) := by
  intro a b
  cases a <;> cases b <;> first
    | (exact isFalse (fun h => Except.noConfusion h))
    | (rename_i x y
       exact if h : x = y then isTrue (by rw [h]) else isFalse (by
         intro hc
         injection hc with h2
         exact h h2))

/-- Claim C9: every chat request appends the user's message to the shared
conversation history first, so the history extends the old history by that
user turn on every outcome — LLM failure, unavailable slot, reservation,
or plain chat — and the appended turn is never rolled back. -/
theorem chat_appends_user_turn_every_outcome (s : AppState) (message : String)
    (llm : Except String String) (parsed : Option Booking) (new_id : String) :
    ∃ rest, (chat_with_agent s message llm parsed new_id).1.conversation_history =
      s.conversation_history ++ ("user", message) :: rest :=
  chat_history_shape s message llm parsed new_id

/-- Claim C3 (amended): bare "hi"/"hello" are not special-cased — like
every input they are appended to the history and sent to the LLM; no chat
response ever carries status "greeting", and the conversation history is
always mutated. -/
theorem chat_no_greeting_short_circuit (s : AppState) (message : String)
    (llm : Except String String) (parsed : Option Booking) (new_id : String) :
    (chat_with_agent s message llm parsed new_id).2.status ≠ "greeting" ∧
    (chat_with_agent s message llm parsed new_id).1.conversation_history ≠
      s.conversation_history :=
  ⟨chat_status_ne_greeting s message llm parsed new_id,
   chat_history_grows s message llm parsed new_id⟩

/-- Claim C3 counterexample: the input "hi" reaches the LLM like any other
message — the response status is "chat", not "greeting", and the
conversation history has been mutated by the call. -/
theorem chat_hi_not_greeting :
    (chat_with_agent initialState "hi"
      (Except.ok "Hello! How can I help you?") none "g1").2.status = "chat" ∧
    (chat_with_agent initialState "hi"
      (Except.ok "Hello! How can I help you?") none "g1").2.status ≠ "greeting" ∧
    (chat_with_agent initialState "hi"
      (Except.ok "Hello! How can I help you?") none "g1").1.conversation_history =
      [("user", "hi"), ("assistant", "Hello! How can I help you?")] := by
  decide

/-- Claim C2 (amended): when the LLM call raises, the chat handler catches
the exception and returns the fixed error response for any input — it
never throws — but performs no fallback extraction: only the user turn is
recorded and slots and bookings are untouched. -/
theorem chat_llm_failure_returns_fixed_error (s : AppState) (message e : String)
    (parsed : Option Booking) (new_id : String) :
    chat_with_agent s message (Except.error e) parsed new_id =
      ({ s with conversation_history := s.conversation_history ++ [("user", message)] },
       { status := "error", reply := errorReply }) :=
  rfl

/-- Claim C2 counterexample: with the LLM forced to fail on the claim's
exact input, no intent is extracted — the handler returns the fixed error
reply and creates no booking, instead of an intent with
customer name "Anna", date 2025-09-13 and time 11:00. -/
theorem llm_failure_no_fallback_extraction :
    (chat_with_agent initialState "book a haircut for Anna on 2025-09-13 at 11:00"
      (Except.error "connection error") none "b1").2 =
      { status := "error", reply := errorReply } ∧
    (chat_with_agent initialState "book a haircut for Anna on 2025-09-13 at 11:00"
      (Except.error "connection error") none "b1").1.bookings = [] := by
  decide

/-- Claim C4 (amended): for every order id — known or unknown, bookings are
never consulted — and every request body that parses as JSON, the push
handler acknowledges with status "received" echoing the order id and
leaves the state untouched; a body that is not valid JSON propagates as an
exception out of the handler instead. -/
theorem push_ack_for_json_body (s : AppState) (oid : Option String)
    (b : List (String × String)) (e : String) :
    (klarna_push s oid (Except.ok b)).2 =
      Except.ok { status := "received", order_id := oid } ∧
    (klarna_push s oid (Except.error e)).2 = Except.error e ∧
    (klarna_push s oid (Except.ok b)).1 = s ∧
    (klarna_push s oid (Except.error e)).1 = s :=
  ⟨rfl, rfl, rfl, rfl⟩

/-- Claim C4 counterexample: a push whose body is not valid JSON makes the
handler raise rather than return the 200 acknowledgement. -/
theorem push_invalid_body_errors :
    (klarna_push initialState (some "order-1") (Except.error "invalid body")).2 =
      Except.error "invalid body" ∧
    (klarna_push initialState (some "order-1") (Except.error "invalid body")).2 ≠
      Except.ok { status := "received", order_id := some "order-1" } := by
  decide

/-- Claim C10: the push handler never modifies any application state — the
bookings map, the slot inventory and the conversation history are all
identical before and after the call — and on a JSON body it only returns
an acknowledgement echoing the order id. -/
theorem push_handler_no_state_mutation (s : AppState) (oid : Option String)
    (body : Except String (List (String × String))) :
    (klarna_push s oid body).1 = s ∧
    (klarna_push s oid body).1.bookings = s.bookings ∧
    (klarna_push s oid body).1.available_slots = s.available_slots ∧
    (klarna_push s oid body).1.conversation_history = s.conversation_history ∧
    ∀ b, body = Except.ok b →
      (klarna_push s oid body).2 = Except.ok { status := "received", order_id := oid } := by
  cases body with
  | error e => exact ⟨rfl, rfl, rfl, rfl, fun b hb => nomatch hb⟩
  | ok b0 => exact ⟨rfl, rfl, rfl, rfl, fun b hb => rfl⟩

theorem push_handler_no_state_mutation_witness :
    (klarna_push initialState (some "o1") (Except.ok [("order_id", "o1")])).1 = initialState ∧
    (klarna_push initialState (some "o1") (Except.ok [("order_id", "o1")])).2 =
      Except.ok { status := "received", order_id := some "o1" } :=
  ⟨(push_handler_no_state_mutation initialState (some "o1")
      (Except.ok [("order_id", "o1")])).1,
   (push_handler_no_state_mutation initialState (some "o1")
      (Except.ok [("order_id", "o1")])).2.2.2.2 [("order_id", "o1")] rfl⟩

/-- Claim C8 (amended): order creation fails exactly when the provider
status is not 200 — any other status, including other 2xx codes such as
201, raises with status 500 and the provider body attached, without retry;
on 200 it succeeds and echoes the provider body's order id and checkout
artifact. -/
theorem order_creation_status_semantics (amount : Int) (service customer_name : String)
    (resp : HttpResponse) :
    (resp.status_code = 200 →
      pay_with_klarna amount service customer_name resp =
        Except.ok { status := "klarna_order_created",
                    order_id := dictFind resp.body "order_id",
                    html_snippet := dictFind resp.body "html_snippet" }) ∧
    (resp.status_code ≠ 200 →
      pay_with_klarna amount service customer_name resp = Except.error (500, resp.text)) := by
  constructor
  · intro h
    simp [pay_with_klarna, create_klarna_order, h]
  · intro h
    simp [pay_with_klarna, create_klarna_order, h]

theorem order_creation_status_semantics_witness :
    pay_with_klarna 500 "Haircut" "Anna"
      { status_code := 200, text := "ok",
        body := [("order_id", "o1"), ("html_snippet", "snip")] } =
      Except.ok { status := "klarna_order_created",
                  order_id := some "o1", html_snippet := some "snip" } ∧
    pay_with_klarna 500 "Haircut" "Anna"
      { status_code := 503, text := "unavailable", body := [] } =
      Except.error (500, "unavailable" ) :=
  ⟨(order_creation_status_semantics 500 "Haircut" "Anna"
      { status_code := 200, text := "ok",
        body := [("order_id", "o1"), ("html_snippet", "snip")] }).1 rfl,
   (order_creation_status_semantics 500 "Haircut" "Anna"
      { status_code := 503, text := "unavailable", body := [] }).2 (by decide)⟩

/-- Claim C8 counterexample: status 201 is a 2xx success from the payment
provider, yet order creation treats it as failure and raises with the
provider body attached. -/
theorem order_creation_fails_on_2xx_201 :
    (200 ≤ 201 ∧ 201 < 300) ∧
    pay_with_klarna 100 "Haircut" "Anna"
      { status_code := 201, text := "created", body := [("order_id", "o1")] } =
      Except.error (500, "created") := by
  decide

/-- Execute one Except-returning endpoint call, keeping the previous state
when the endpoint raises (used only to chain concrete traces). -/
def stepOk (r : Except Nat AppState) (dflt : AppState) : AppState :=
  match r with
  | Except.ok s => s
  | Except.error _ => dflt

def c1Book : Booking :=
  { service := "Haircut", customer_name := "Anna", date := "2025-09-13", time := "11:00" }

def c1s1 : AppState :=
  (chat_with_agent initialState "book a haircut" (Except.ok "r1") (some c1Book) "b1").1

def c1s2 : AppState := stepOk (add_slot c1s1 (some "2025-09-13") (some "11:00")) c1s1

def c1s3 : AppState :=
  (chat_with_agent c1s2 "book another" (Except.ok "r2") (some c1Book) "b2").1

def c1s4 : AppState := stepOk (cancel_booking c1s3 "b1") c1s3

def c1s5 : AppState := stepOk (cancel_booking c1s4 "b2") c1s4

/-- Claim C1: release via booking cancellation appends the time
unconditionally instead of checking membership — in a reachable trace
(reserve 11:00, re-add it via the slot endpoint, reserve it again, cancel
both bookings) the second release of ("2025-09-13", "11:00") produces two
entries for the same time in the date's list, never deduplicated. -/
theorem cancel_release_duplicates_entry :
    (dictGetD c1s4.available_slots "2025-09-13" []).count "11:00" = 1 ∧
    (dictGetD c1s5.available_slots "2025-09-13" []).count "11:00" = 2 := by
  decide

def c5Book : Booking :=
  { service := "Haircut", customer_name := "Anna", date := "2025-09-13", time := "10:00" }

def c5s1 : AppState :=
  (chat_with_agent initialState "book" (Except.ok "r") (some c5Book) "b1").1

def c5s2 : AppState := stepOk (add_slot c5s1 (some "2025-09-13") (some "10:00")) c5s1

/-- Claim C5 counterexample: after reserving ("2025-09-13", "10:00")
through chat, the public add_slot endpoint re-adds that very time while
the pending booking still holds it — in the resulting reachable state the
time is free AND an active booking holds it, refuting the biconditional. -/
theorem add_slot_breaks_inventory_invariant :
    check_availability c5s2 "2025-09-13" "10:00" = true ∧
    dictFind c5s2.bookings "b1" = some { booking := c5Book, status := "pending" } := by
  decide

/-- Claim C5 (amended): the reservation path of chat, booking
cancellation and booking confirmation each preserve the invariant that no
(date, time) is simultaneously free in the inventory and held by a stored
(pending/confirmed) booking — together with duplicate-freeness of the
per-date free lists and at most one stored booking per slot — but the
slot-administration endpoints do not: add_slot can re-add a time held by
an active booking, so the biconditional fails over the full set of public
operations. -/
theorem core_operations_preserve_exclusivity (s : AppState) (hWF : StateWF s) :
    (∀ message llm parsed new_id, hasKey s.bookings new_id = false →
        StateWF (chat_with_agent s message llm parsed new_id).1) ∧
    (∀ booking_id s2, cancel_booking s booking_id = Except.ok s2 → StateWF s2) ∧
    (∀ booking_id s2, confirm_booking s booking_id = Except.ok s2 → StateWF s2) :=
  ⟨fun message llm parsed new_id hf => chat_preserves_WF s message llm parsed new_id hWF hf,
   fun booking_id s2 h => cancel_preserves_WF s booking_id s2 hWF h,
   fun booking_id s2 h => confirm_preserves_WF s booking_id s2 hWF h⟩

def c5w : AppState :=
  (chat_with_agent initialState "book" (Except.ok "r")
    (some { service := "Haircut", customer_name := "Bo",
            date := "2025-09-14", time := "09:00" }) "w1").1

def c5cw : AppState := stepOk (cancel_booking c5w "w1") c5w

theorem core_operations_preserve_exclusivity_witness :
    StateWF initialState ∧
    hasKey initialState.bookings "w1" = false ∧
    StateWF c5w ∧
    cancel_booking c5w "w1" = Except.ok c5cw ∧
    StateWF c5cw :=
  ⟨by decide, by decide,
   (core_operations_preserve_exclusivity initialState (by decide)).1 "book" (Except.ok "r")
     (some { service := "Haircut", customer_name := "Bo",
             date := "2025-09-14", time := "09:00" }) "w1" (by decide),
   by decide,
   (core_operations_preserve_exclusivity c5w (by decide)).2.1 "w1" c5cw (by decide)⟩

/-- Claim C6: reserving an available (date, time) through chat removes
exactly that time from the date's free set — the free sets being
duplicate-free — so that afterwards availability of the same pair is
false, a second reserve of the same pair is rejected as unavailable, and
every other time of that date is untouched. -/
theorem reserve_removes_exactly_that_time (s : AppState) (bk : Booking)
    (message reply new_id message2 reply2 new_id2 t : String)
    (hnd : (dictGetD s.available_slots bk.date []).Nodup)
    (hmem : bk.time ∈ dictGetD s.available_slots bk.date [])
    (ht : t ≠ bk.time) :
    (chat_with_agent s message (Except.ok reply) (some bk) new_id).2.status = "reserved" ∧
    check_availability (chat_with_agent s message (Except.ok reply) (some bk) new_id).1
      bk.date bk.time = false ∧
    (t ∈ dictGetD (chat_with_agent s message (Except.ok reply) (some bk) new_id).1.available_slots
        bk.date [] ↔ t ∈ dictGetD s.available_slots bk.date []) ∧
    (chat_with_agent (chat_with_agent s message (Except.ok reply) (some bk) new_id).1
      message2 (Except.ok reply2) (some bk) new_id2).2.status = "unavailable" := by
  obtain ⟨slots, books, history⟩ := s
  dsimp only at hnd hmem
  have hav : (dictGetD slots bk.date []).contains bk.time = true := by
    rw [list_contains_iff]
    exact hmem
  have hred : chat_with_agent ⟨slots, books, history⟩ message (Except.ok reply) (some bk) new_id =
      (⟨dictSet slots bk.date ((dictGetD slots bk.date []).erase bk.time),
        dictSet books new_id { booking := bk, status := "pending" },
        (history ++ [("user", message)]) ++ [("assistant", reply)]⟩,
       { status := "reserved",
         reply := "✅ Reserved! Booking ID: " ++ new_id ++ " for "
           ++ bk.customer_name ++ " at " ++ bk.time ++ " on " ++ bk.date ++ "." }) := by
    unfold chat_with_agent
    dsimp only [check_availability]
    rw [if_pos hav]
  rw [hred]
  dsimp only
  have hfree : bk.time ∉
      dictGetD (dictSet slots bk.date ((dictGetD slots bk.date []).erase bk.time)) bk.date [] := by
    simp only [dictGetD, dictFind_set_self, Option.getD_some]
    exact hnd.not_mem_erase
  refine ⟨rfl, ?_, ?_, ?_⟩
  · rw [check_availability_eq_false]
    exact hfree
  · simp only [dictGetD, dictFind_set_self, Option.getD_some]
    exact List.mem_erase_of_ne ht
  · have hcontr : ¬ ((dictGetD
        (dictSet slots bk.date ((dictGetD slots bk.date []).erase bk.time))
        bk.date []).contains bk.time = true) := by
      rw [list_contains_iff]
      exact hfree
    unfold chat_with_agent
    dsimp only [check_availability]
    rw [if_neg hcontr]
    split
    · rfl
    · rfl

theorem reserve_removes_exactly_that_time_witness :
    ((dictGetD initialState.available_slots "2025-09-13" []).Nodup ∧
     "11:00" ∈ dictGetD initialState.available_slots "2025-09-13" [] ∧
     ("10:00" : String) ≠ "11:00") ∧
    ((chat_with_agent initialState "book" (Except.ok "r")
        (some { service := "Haircut", customer_name := "Anna",
                date := "2025-09-13", time := "11:00" }) "b1").2.status = "reserved" ∧
     check_availability (chat_with_agent initialState "book" (Except.ok "r")
        (some { service := "Haircut", customer_name := "Anna",
                date := "2025-09-13", time := "11:00" }) "b1").1 "2025-09-13" "11:00" = false ∧
     ("10:00" ∈ dictGetD (chat_with_agent initialState "book" (Except.ok "r")
        (some { service := "Haircut", customer_name := "Anna",
                date := "2025-09-13", time := "11:00" }) "b1").1.available_slots "2025-09-13" [] ↔
      "10:00" ∈ dictGetD initialState.available_slots "2025-09-13" []) ∧
     (chat_with_agent (chat_with_agent initialState "book" (Except.ok "r")
        (some { service := "Haircut", customer_name := "Anna",
                date := "2025-09-13", time := "11:00" }) "b1").1
        "again" (Except.ok "r2")
        (some { service := "Haircut", customer_name := "Anna",
                date := "2025-09-13", time := "11:00" }) "b2").2.status = "unavailable") ∧
    dictGetD (chat_with_agent initialState "book" (Except.ok "r")
        (some { service := "Haircut", customer_name := "Anna",
                date := "2025-09-13", time := "11:00" }) "b1").1.available_slots
      "2025-09-13" [] = ["10:00", "14:00"] :=
  ⟨⟨by decide, by decide, by decide⟩,
   reserve_removes_exactly_that_time initialState
     { service := "Haircut", customer_name := "Anna", date := "2025-09-13", time := "11:00" }
     "book" "r" "b1" "again" "r2" "b2" "10:00" (by decide) (by decide) (by decide),
   by decide⟩

/-- Claim C7: cancelling a booking fails with 404 exactly when the id is
absent; otherwise it restores the booking's exact (date, time) to the
inventory (creating the date entry if absent), deletes the booking record
regardless of its prior status, and the restored slot is reservable
again. -/
theorem cancel_booking_spec (s : AppState) (booking_id : String) (rec : BookingRec)
    (s2 : AppState) (message reply new_id : String) :
    (cancel_booking s booking_id = Except.error 404 ↔
      hasKey s.bookings booking_id = false) ∧
    (dictFind s.bookings booking_id = some rec →
      cancel_booking s booking_id = Except.ok s2 →
      (check_availability s2 rec.booking.date rec.booking.time = true ∧
       hasKey s2.bookings booking_id = false ∧
       s2.bookings = dictDel s.bookings booking_id ∧
       (chat_with_agent s2 message (Except.ok reply) (some rec.booking) new_id).2.status =
         "reserved")) := by
  obtain ⟨slots, books, history⟩ := s
  constructor
  · unfold cancel_booking
    dsimp only
    rw [hasKey_eq_false_iff]
    cases hf : dictFind books booking_id with
    | none => simp
    | some r => simp
  · intro hfind hok
    unfold cancel_booking at hok
    dsimp only at hok
    rw [hfind] at hok
    dsimp only at hok
    injection hok with h2
    subst h2
    have hcont : (dictGetD
        (if hasKey slots rec.booking.date = true then
          dictSet slots rec.booking.date
            (dictGetD slots rec.booking.date [] ++ [rec.booking.time])
        else slots ++ [(rec.booking.date, [rec.booking.time])])
        rec.booking.date []).contains rec.booking.time = true := by
      rw [list_contains_iff]
      by_cases hk : hasKey slots rec.booking.date = true
      · rw [if_pos hk]
        simp only [dictGetD, dictFind_set_self, Option.getD_some]
        exact List.mem_append.mpr (Or.inr (List.mem_singleton.mpr rfl))
      · rw [if_neg hk]
        simp only [dictGetD, dictFind_append]
        rw [if_neg hk]
        simp [dictFind]
    refine ⟨hcont, hasKey_dictDel_self books booking_id, rfl, ?_⟩
    unfold chat_with_agent
    dsimp only [check_availability]
    rw [if_pos hcont]

def c7state : AppState :=
  { available_slots := [("2025-09-13", ["10:00"])],
    bookings := [("bid1",
      { booking := { service := "Haircut", customer_name := "Anna",
                     date := "2025-09-13", time := "11:00" },
        status := "confirmed" })],
    conversation_history := [] }

def c7after : AppState :=
  { available_slots := [("2025-09-13", ["10:00", "11:00"])],
    bookings := [],
    conversation_history := [] }

theorem cancel_booking_spec_witness :
    (cancel_booking c7state "missing" = Except.error 404 ↔
      hasKey c7state.bookings "missing" = false) ∧
    dictFind c7state.bookings "bid1" =
      some { booking := { service := "Haircut", customer_name := "Anna",
                          date := "2025-09-13", time := "11:00" },
             status := "confirmed" } ∧
    cancel_booking c7state "bid1" = Except.ok c7after ∧
    (check_availability c7after "2025-09-13" "11:00" = true ∧
     hasKey c7after.bookings "bid1" = false ∧
     c7after.bookings = dictDel c7state.bookings "bid1" ∧
     (chat_with_agent c7after "m" (Except.ok "r")
        (some { service := "Haircut", customer_name := "Anna",
                date := "2025-09-13", time := "11:00" }) "b9").2.status = "reserved") :=
  ⟨(cancel_booking_spec c7state "missing"
      { booking := { service := "Haircut", customer_name := "Anna",
                     date := "2025-09-13", time := "11:00" },
        status := "confirmed" } c7after "m" "r" "b9").1,
   by decide, by decide,
   (cancel_booking_spec c7state "bid1"
      { booking := { service := "Haircut", customer_name := "Anna",
                     date := "2025-09-13", time := "11:00" },
        status := "confirmed" } c7after "m" "r" "b9").2 (by decide) (by decide)⟩
